import Mathlib

/-!
Verification of the job-record extraction, normalization, deduplication and
recency-ranking pipeline of `job_alert.py`.

Python values flowing through the script (JSON-decoded API data) are embedded
as the inductive `PyVal`; dictionaries are association lists with string keys.
Code that can raise a Python exception is embedded in `Except String`, the
error string naming the exception class.  Pure helpers of the script become
Lean functions of the same name.
-/

set_option maxHeartbeats 1000000

/-- Whitespace characters recognised by Python's `str.strip` / `\s`
(ASCII range; the data handled by the script is ASCII). -/
def isPySpace (c : Char) : Bool :=
  c = ' ' || c = '\t' || c = '\n' || c = '\x0d' || c = '\x0c' || c = '\x0b'

/-- Python `str.strip()` on a character list: drop whitespace at both ends. -/
def stripChars (l : List Char) : List Char :=
  ((l.dropWhile isPySpace).reverse.dropWhile isPySpace).reverse

/-- Python `str.lower()` (ASCII range). -/
def lowerChars (l : List Char) : List Char :=
  l.map Char.toLower

/-- Does the pattern occur at the head of the list (`startswith`)? -/
def startsWithList : List Char → List Char → Bool
  | [], _ => true
  | _ :: _, [] => false
  | p :: ps, c :: cs => p == c && startsWithList ps cs

/-- Python substring containment `pat in s`. -/
def containsSub (pat : List Char) : List Char → Bool
  | [] => startsWithList pat []
  | c :: cs => startsWithList pat (c :: cs) || containsSub pat cs

/-- Numeric value of a run of decimal digits (Python `int` of the matched group). -/
def digitsVal (ds : List Char) : Nat :=
  ds.foldl (fun a c => a * 10 + (c.toNat - 48)) 0

/-- Embedding of `re.search(r"(\d+)\s+word", s)` for a literal word: scan for the
leftmost position at which a maximal run of digits is followed by at least one
whitespace character and then the word, returning the value of the digit group.
(The character classes of the pattern are disjoint, so greedy maximal runs with
no backtracking coincide with Python's leftmost-match semantics.) -/
def matchNumWord (word : List Char) : List Char → Option Nat
  | [] => none
  | c :: cs =>
    if c.isDigit then
      let digits := (c :: cs).takeWhile Char.isDigit
      let rest := (c :: cs).dropWhile Char.isDigit
      let spaces := rest.takeWhile isPySpace
      let after := rest.dropWhile isPySpace
      if spaces ≠ [] && startsWithList word after then some (digitsVal digits)
      else matchNumWord word cs
    else matchNumWord word cs

/-- The local variable `s = time_posted.strip().lower()` of `posted_days`. -/
def recencyText (t : String) : List Char :=
  lowerChars (stripChars t.toList)

/-- The literal `"just posted"` searched for by `posted_days`. -/
def jpPat : List Char := "just posted".toList

/-- The literal `"today"` searched for by `posted_days`. -/
def todayPat : List Char := "today".toList

/-- The literal `"yesterday"` searched for by `posted_days`. -/
def ydayPat : List Char := "yesterday".toList

/-- The literal `"hour"` of the pattern `\d+\s+hour`. -/
def hourPat : List Char := "hour".toList

/-- The literal `"day"` of the pattern `(\d+)\s+day`. -/
def dayPat : List Char := "day".toList

/-- The literal `"week"` of the pattern `(\d+)\s+week`. -/
def weekPat : List Char := "week".toList

/-- Embedding of `posted_days` (job_alert.py lines 192-213). -/
def posted_days (time_posted : String) : Nat :=
  if time_posted = "" ∨ time_posted = "N/A" then 999
  else
    let s := recencyText time_posted
    if containsSub jpPat s || containsSub todayPat s then 0
    else if containsSub ydayPat s then 1
    else if (matchNumWord hourPat s).isSome then 0
    else
      match matchNumWord dayPat s with
      | some n => n
      | none =>
        match matchNumWord weekPat s with
        | some n => n * 7
        | none => 999

/-- Embedding of the Python/JSON values the script manipulates.  Dictionaries
are association lists with string keys (the keys occurring in the API data);
numbers occurring in the data are integers. -/
inductive PyVal where
  | vNone : PyVal
  | vBool (b : Bool) : PyVal
  | vInt (n : Int) : PyVal
  | vStr (s : String) : PyVal
  | vList (xs : List PyVal) : PyVal
  | vDict (kvs : List (String × PyVal)) : PyVal

/-- A Python dictionary with string keys, as flows through the script. -/
abbrev Dict := List (String × PyVal)

/-- Python truthiness (`bool(v)`). -/
def PyVal.truthy : PyVal → Bool
  | .vNone => false
  | .vBool b => b
  | .vInt n => n != 0
  | .vStr s => s != ""
  | .vList xs => !xs.isEmpty
  | .vDict kvs => !kvs.isEmpty

/-- Python `a or b`: `a` if truthy, else `b`. -/
def pyOr (a b : PyVal) : PyVal :=
  if a.truthy then a else b

/-- Python `d.get(k)` on a dictionary (default `None`).  The dictionaries built
by the script have pairwise-distinct keys, so the first binding is the binding. -/
def dget (d : Dict) (k : String) : PyVal :=
  match d.find? (fun p => p.1 == k) with
  | some p => p.2
  | none => .vNone

/-- Python `v == lit` for a string literal `lit`: equality never holds across
types (no numeric coercion involves `str`), and never raises. -/
def pyEqStr (v : PyVal) (lit : String) : Bool :=
  match v with
  | .vStr s => s == lit
  | _ => false

mutual

/-- Python `str(v)` (second argument `false`) and `repr(v)` (second argument
`true`, used for elements of containers).  Container rendering follows
CPython's (`[x, y]`, `\x7bk: v\x7d`, strings quoted); re-escaping of quote
characters inside nested strings is not modelled — no claim depends on the
rendering of containers. -/
def pyStrAux : PyVal → Bool → String
  | .vNone, _ => "None"
  | .vBool true, _ => "True"
  | .vBool false, _ => "False"
  | .vInt n, _ => toString n
  | .vStr s, asRepr => if asRepr then "\x27" ++ s ++ "\x27" else s
  | .vList xs, _ => "[" ++ String.intercalate ", " (pyStrList xs) ++ "]"
  | .vDict kvs, _ => "\x7b" ++ String.intercalate ", " (pyStrDict kvs) ++ "\x7d"

/-- Renderings of the elements of a list value (each via `repr`). -/
def pyStrList : List PyVal → List String
  | [] => []
  | v :: vs => pyStrAux v true :: pyStrList vs

/-- Renderings `repr(k): repr(v)` of the entries of a dictionary value. -/
def pyStrDict : List (String × PyVal) → List String
  | [] => []
  | (k, v) :: kvs => ("\x27" ++ k ++ "\x27: " ++ pyStrAux v true) :: pyStrDict kvs

end

/-- Python `str(v)`. -/
def pyToStr (v : PyVal) : String := pyStrAux v false

/-- Python string `or`: the left operand if non-empty, else the right. -/
def strOr (a b : String) : String :=
  if a == "" then b else a

/-- The expression `x.get("link") or "N/A"` applied to an element of a link
list; a non-dictionary element has no `.get` method, so Python raises
`AttributeError`. -/
def getLinkOrNA (x : PyVal) : Except String PyVal :=
  match x with
  | .vDict kvs => .ok (pyOr (dget kvs "link") (.vStr "N/A"))
  | _ => .error "AttributeError"

/-- Embedding of `safe_apply_link` (job_alert.py lines 117-121). -/
def safe_apply_link (job : Dict) : Except String PyVal :=
  let links := pyOr (dget job "related_links") (.vList [])
  match links with
  | .vList (x :: _) => getLinkOrNA x
  | _ => .ok (.vStr "N/A")

/-- Embedding of `safe_source_link` (job_alert.py lines 124-130). -/
def safe_source_link (job : Dict) : Except String PyVal :=
  let links := pyOr (dget job "related_links") (.vList [])
  match links with
  | .vList (_ :: y :: _) => getLinkOrNA y
  | .vList [x] => getLinkOrNA x
  | _ => .ok (.vStr "N/A")

/-- Embedding of `safe_apply_link_from_details` (job_alert.py lines 133-137). -/
def safe_apply_link_from_details (details : Dict) : Except String PyVal :=
  let opts := pyOr (dget details "apply_options") (.vList [])
  match opts with
  | .vList (x :: _) => getLinkOrNA x
  | _ => .ok (.vStr "N/A")

/-- Embedding of `safe_source_link_from_details` (job_alert.py lines 140-146). -/
def safe_source_link_from_details (details : Dict) : Except String PyVal :=
  let opts := pyOr (dget details "apply_options") (.vList [])
  match opts with
  | .vList (_ :: y :: _) => getLinkOrNA y
  | .vList [x] => getLinkOrNA x
  | _ => .ok (.vStr "N/A")

/-- The pay predicate of `safe_pay`:
`"$" in item or "hour" in item.lower() or "year" in item.lower()`. -/
def hasDollarHourYear (s : String) : Bool :=
  containsSub "$".toList s.toList ||
  containsSub "hour".toList (lowerChars s.toList) ||
  containsSub "year".toList (lowerChars s.toList)

/-- The scan loop of `safe_pay` over the `extensions` list: first string
element satisfying the pay predicate, else `"N/A"`. -/
def payScan : List PyVal → String
  | [] => "N/A"
  | item :: rest =>
    match item with
    | .vStr s => if hasDollarHourYear s then s else payScan rest
    | _ => payScan rest

/-- The `extensions` part of `safe_pay` (lines 154-159): the scan runs only
when `job.get("extensions") or []` is a list. -/
def payFromExtensions (job : Dict) : String :=
  let ext := pyOr (dget job "extensions") (.vList [])
  match ext with
  | .vList items => payScan items
  | _ => "N/A"

/-- Embedding of `safe_pay` (job_alert.py lines 149-159). -/
def safe_pay (job : Dict) : String :=
  let de := pyOr (dget job "detected_extensions") (.vDict [])
  match de with
  | .vDict kvs =>
      if (dget kvs "salary").truthy then pyToStr (dget kvs "salary")
      else payFromExtensions job
  | _ => payFromExtensions job

/-- Embedding of `safe_pay_from_details` (job_alert.py lines 162-166). -/
def safe_pay_from_details (details : Dict) : String :=
  let de := pyOr (dget details "detected_extensions") (.vDict [])
  match de with
  | .vDict kvs =>
      if (dget kvs "salary").truthy then pyToStr (dget kvs "salary") else "N/A"
  | _ => "N/A"

/-- The recency-text predicate of `safe_time_posted`: item contains `"ago"`,
`"today"`, `"yesterday"` or `"posted"` case-insensitively. -/
def timeMatches (s : String) : Bool :=
  containsSub "ago".toList (lowerChars s.toList) ||
  containsSub "today".toList (lowerChars s.toList) ||
  containsSub "yesterday".toList (lowerChars s.toList) ||
  containsSub "posted".toList (lowerChars s.toList)

/-- The scan loop of `safe_time_posted` over the `extensions` list. -/
def timeScan : List PyVal → String
  | [] => "N/A"
  | item :: rest =>
    match item with
    | .vStr s => if timeMatches s then s else timeScan rest
    | _ => timeScan rest

/-- The `extensions` part of `safe_time_posted` (lines 174-182). -/
def timeFromExtensions (job : Dict) : String :=
  let ext := pyOr (dget job "extensions") (.vList [])
  match ext with
  | .vList items => timeScan items
  | _ => "N/A"

/-- Embedding of `safe_time_posted` (job_alert.py lines 169-182). -/
def safe_time_posted (job : Dict) : String :=
  let de := pyOr (dget job "detected_extensions") (.vDict [])
  match de with
  | .vDict kvs =>
      if (dget kvs "posted_at").truthy then pyToStr (dget kvs "posted_at")
      else timeFromExtensions job
  | _ => timeFromExtensions job

/-- Embedding of `safe_time_posted_from_details` (job_alert.py lines 185-189). -/
def safe_time_posted_from_details (details : Dict) : String :=
  let de := pyOr (dget details "detected_extensions") (.vDict [])
  match de with
  | .vDict kvs =>
      if (dget kvs "posted_at").truthy then pyToStr (dget kvs "posted_at") else "N/A"
  | _ => "N/A"

/-- The `FOOD_HINTS` keyword list (job_alert.py lines 46-49). -/
def FOOD_HINTS : List String :=
  ["food", "food manufacturing", "food processing", "meat", "dairy", "bakery", "beverage",
   "plant", "production", "warehouse", "HACCP", "SQF", "FSQA", "GMP", "sanitation"]

/-- The `ROLE_KEYWORDS` list (job_alert.py lines 27-44); it is consulted only
by `build_queries`, never by the relevance filter. -/
def ROLE_KEYWORDS : List String :=
  ["Quality Assurance Supervisor", "Quality Assurance Manager", "QA Supervisor", "QA Manager",
   "Quality Supervisor", "Quality Manager", "FSQ Manager", "FSQ Supervisor", "FSQ Specialist",
   "FSQA Manager", "FSQA Supervisor", "FSQA Specialist", "Food Safety Manager",
   "Food Safety Supervisor", "Quality Specialist", "Quality Lead"]

/-- The lowered text `" ".join([str(title or ""), str(company or ""),
str(description or "")]).lower()` scanned by `looks_food_industry`. -/
def jobSearchText (job : Dict) : List Char :=
  lowerChars (String.intercalate " "
    [pyToStr (pyOr (dget job "title") (.vStr "")),
     pyToStr (pyOr (dget job "company_name") (.vStr "")),
     pyToStr (pyOr (dget job "description") (.vStr ""))]).toList

/-- Embedding of `looks_food_industry` (job_alert.py lines 216-222). -/
def looks_food_industry (job : Dict) : Bool :=
  FOOD_HINTS.any (fun h => containsSub (lowerChars h.toList) (jobSearchText job))

/-- Uppercase-hex digit for percent-encoding. -/
def hexDigit (n : Nat) : Char :=
  if n < 10 then Char.ofNat (48 + n) else Char.ofNat (55 + n)

/-- UTF-8 encoding of one character, as the list of its byte values. -/
def utf8Bytes (c : Char) : List Nat :=
  let n := c.toNat
  if n < 128 then [n]
  else if n < 2048 then [192 + n / 64, 128 + n % 64]
  else if n < 65536 then [224 + n / 4096, 128 + n / 64 % 64, 128 + n % 64]
  else [240 + n / 262144, 128 + n / 4096 % 64, 128 + n / 64 % 64, 128 + n % 64]

/-- Percent-encoding of one UTF-8 byte under `urllib.parse.quote_plus` with its
default arguments: letters, digits and `_.-~` stand for themselves, a space
becomes `+`, every other byte becomes `%XX` with uppercase hex. -/
def quoteByte (n : Nat) : String :=
  if n = 32 then "+"
  else if (48 ≤ n ∧ n ≤ 57) ∨ (65 ≤ n ∧ n ≤ 90) ∨ (97 ≤ n ∧ n ≤ 122) ∨
          n = 95 ∨ n = 46 ∨ n = 45 ∨ n = 126 then
    String.singleton (Char.ofNat n)
  else
    String.singleton '%' ++ String.singleton (hexDigit (n / 16)) ++
      String.singleton (hexDigit (n % 16))

/-- Embedding of `urllib.parse.quote_plus` on the UTF-8 bytes of the input. -/
def quote_plus (s : String) : String :=
  String.join ((s.toList.map utf8Bytes).flatten.map quoteByte)

/-- Embedding of `company_careers_search_link` (job_alert.py lines 225-229);
its argument is the (arbitrarily typed) company value of the record. -/
def company_careers_search_link (company_name : PyVal) : String :=
  if company_name.truthy = false ∨ pyEqStr company_name "N/A" = true then "N/A"
  else "https://www.google.com/search?q=" ++ quote_plus (pyToStr company_name ++ " careers")

/-- The normalized record returned by `normalize_row`: the keys of its
return-dictionary literal (lines 259-270), in order.  `pay` and
`time_posted` are always genuine strings in the script (every producing
expression is `str(...)`, a string constant, or a string-typed scan), so they
are typed `String`; the remaining values can be arbitrary Python values. -/
structure Row where
  job_id : PyVal
  title : PyVal
  company_name : PyVal
  pay : String
  time_posted : String
  location : PyVal
  source : PyVal
  apply_link : PyVal
  source_link : PyVal
  company_careers_link : String

/-- The return-dictionary literal of `normalize_row` (lines 259-270),
including the `x if x else "N/A"` guards. -/
def returnRow (job_id title company : PyVal) (pay time_posted : String)
    (location source apply_link source_link : PyVal) : Row :=
  { job_id := job_id
    title := title
    company_name := company
    pay := if pay == "" then "N/A" else pay
    time_posted := if time_posted == "" then "N/A" else time_posted
    location := location
    source := source
    apply_link := if apply_link.truthy then apply_link else .vStr "N/A"
    source_link := if source_link.truthy then source_link else .vStr "N/A"
    company_careers_link := company_careers_search_link company }

/-- Embedding of `normalize_row` (job_alert.py lines 232-270).  The network
lookup `serpapi_google_jobs_listing(job_id)` is abstracted by the oracle
`listing`; per its implementation (lines 89-113) that call never raises and
yields a JSON object, `\x7b\x7d` on any failure, so the oracle's codomain is
`Dict`.  A raised exception is an `Except.error` naming the exception. -/
def normalize_row (job : Dict) (listing : PyVal → Dict) : Except String Row :=
  let job_id := pyOr (dget job "job_id") (.vStr "N/A")
  let title := pyOr (dget job "title") (.vStr "N/A")
  let company := pyOr (dget job "company_name") (.vStr "N/A")
  let location := pyOr (dget job "location") (.vStr "N/A")
  let source := pyOr (dget job "via") (.vStr "Unknown")
  let pay := safe_pay job
  let time_posted := safe_time_posted job
  match safe_apply_link job with
  | .error e => .error e
  | .ok apply_link =>
    match safe_source_link job with
    | .error e => .error e
    | .ok source_link =>
      if !pyEqStr job_id "N/A" &&
         (pay == "N/A" || time_posted == "N/A" ||
          pyEqStr apply_link "N/A" || pyEqStr source_link "N/A") then
        let details := listing job_id
        if !details.isEmpty then
          let pay2 := if pay == "N/A" then strOr (safe_pay_from_details details) pay else pay
          let time2 :=
            if time_posted == "N/A" then strOr (safe_time_posted_from_details details) time_posted
            else time_posted
          match (if pyEqStr apply_link "N/A" then
                   Except.map (fun v => pyOr v apply_link) (safe_apply_link_from_details details)
                 else .ok apply_link) with
          | .error e => .error e
          | .ok apply2 =>
            match (if pyEqStr source_link "N/A" then
                     Except.map (fun v => pyOr v source_link) (safe_source_link_from_details details)
                   else .ok source_link) with
            | .error e => .error e
            | .ok source2 =>
              let via2 := if pyEqStr source "Unknown" then pyOr (dget details "via") source else source
              .ok (returnRow job_id title company pay2 time2 location via2 apply2 source2)
        else
          .ok (returnRow job_id title company pay time_posted location source apply_link source_link)
      else
        .ok (returnRow job_id title company pay time_posted location source apply_link source_link)

/-- One normalized record per raw posting, in order (the `normalize_row` calls
performed by the driver loop); an exception in any call aborts the run. -/
def normalize_all (listing : PyVal → Dict) : List Dict → Except String (List Row)
  | [] => .ok []
  | j :: js =>
    match normalize_row j listing with
    | .error e => .error e
    | .ok r =>
      match normalize_all listing js with
      | .error e => .error e
      | .ok rs => .ok (r :: rs)

example : safe_pay [("extensions", .vList [.vStr "2 days ago", .vStr "$17 an hour"])] = "$17 an hour" := by rfl
example : safe_pay [("detected_extensions", .vDict [("salary", .vStr "55k")])] = "55k" := by rfl
example : safe_pay [] = "N/A" := by rfl
example : looks_food_industry [("title", .vStr "QA Supervisor"), ("company_name", .vStr "Acme Corp")] = false := by rfl
example : looks_food_industry [("title", .vStr "QA Supervisor - Dairy")] = true := by rfl
example : quote_plus "Acme & Co careers" = "Acme+%26+Co+careers" := by rfl
example : (normalize_row [] (fun _ => [])).map Row.apply_link = .ok (.vStr "N/A") := by rfl
example : normalize_row [("related_links", .vList [.vStr "x"])] (fun _ => []) = .error "AttributeError" := by rfl

/-- Python `a + b` on values: string, list and integer addition (`bool`
coerces to `int`); any other combination raises `TypeError`. -/
def pyAdd (a b : PyVal) : Except String PyVal :=
  match a, b with
  | .vStr s, .vStr t => .ok (.vStr (s ++ t))
  | .vList xs, .vList ys => .ok (.vList (xs ++ ys))
  | .vInt m, .vInt n => .ok (.vInt (m + n))
  | .vBool x, .vInt n => .ok (.vInt ((if x then 1 else 0) + n))
  | .vInt m, .vBool y => .ok (.vInt (m + (if y then 1 else 0)))
  | .vBool x, .vBool y => .ok (.vInt ((if x then 1 else 0) + (if y then 1 else 0)))
  | _, _ => .error "TypeError"

/-- Is the value hashable (usable as a set element)?  Lists and dictionaries
are unhashable; Python raises `TypeError` on inserting or looking them up. -/
def hashablePy : PyVal → Bool
  | .vList _ => false
  | .vDict _ => false
  | _ => true

/-- Python `==` on hashable (scalar) values: `None`, strings, and numbers,
with booleans comparing equal to the corresponding integers.  Container
operands never reach an equality test in `dedupe_by_job_id` — the hashability
check raises first — so they compare unequal here. -/
def pyKeyEq (a b : PyVal) : Bool :=
  match a, b with
  | .vNone, .vNone => true
  | .vStr s, .vStr t => s == t
  | .vBool x, .vBool y => x == y
  | .vInt m, .vInt n => m == n
  | .vBool x, .vInt n => (if x then (1 : Int) else 0) == n
  | .vInt m, .vBool y => m == (if y then (1 : Int) else 0)
  | _, _ => false

/-- The key expression of `dedupe_by_job_id` (line 289):
`row.get("job_id") or (row.get("title", "") + "|" + row.get("company_name", "")
+ "|" + row.get("location", ""))`.  Python's `or` short-circuits, so the
concatenation (which can raise `TypeError` on non-string fields) is evaluated
only when the `job_id` value is falsy. -/
def rowKey (r : Row) : Except String PyVal :=
  if r.job_id.truthy then .ok r.job_id
  else
    match pyAdd r.title (.vStr "|") with
    | .error e => .error e
    | .ok a =>
      match pyAdd a r.company_name with
      | .error e => .error e
      | .ok b =>
        match pyAdd b (.vStr "|") with
        | .error e => .error e
        | .ok c => pyAdd c r.location

/-- The loop of `dedupe_by_job_id` (lines 287-294) with its `seen` set, here a
list of the keys already added.  Membership in a Python set first hashes the
key — `TypeError` for an unhashable key — then compares. -/
def dedupeGo (seen : List PyVal) : List Row → Except String (List Row)
  | [] => .ok []
  | r :: rs =>
    match rowKey r with
    | .error e => .error e
    | .ok key =>
      if hashablePy key = false then .error "TypeError"
      else if seen.any (fun k => pyKeyEq key k) then dedupeGo seen rs
      else
        match dedupeGo (key :: seen) rs with
        | .error e => .error e
        | .ok out => .ok (r :: out)

/-- Embedding of `dedupe_by_job_id` (job_alert.py lines 285-294). -/
def dedupe_by_job_id (rows : List Row) : Except String (List Row) :=
  dedupeGo [] rows

/-- The window filter of `main` (line 371):
`[r for r in all_rows if posted_days(r.get("time_posted", "N/A")) <= 7]`. -/
def windowFilter (rows : List Row) : List Row :=
  rows.filter (fun r => posted_days r.time_posted ≤ 7)

/-- The sort key of `main` (line 372). -/
def recencyLE (a b : Row) : Bool :=
  decide (posted_days a.time_posted ≤ posted_days b.time_posted)

/-- The sort of `main` (line 372):
`all_rows.sort(key=lambda r: posted_days(r.get("time_posted", "N/A")))`.
Python's `list.sort` is a stable sort by the key; it is embedded as the stable
`List.mergeSort` under the key order. -/
def sortRows (rows : List Row) : List Row :=
  rows.mergeSort recencyLE

/-- The post-accumulation stage of `main` (lines 370-372): deduplicate, filter
to the 7-day window, sort ascending by recency. -/
def pipelinePost (rows : List Row) : Except String (List Row) :=
  match dedupe_by_job_id rows with
  | .error e => .error e
  | .ok d => .ok (sortRows (windowFilter d))

/-- The string elements of the `extensions` list of a posting (the free-text
extension strings), empty when there is no extensions list. -/
def extStrings (job : Dict) : List String :=
  match pyOr (dget job "extensions") (.vList []) with
  | .vList items => items.filterMap (fun v => match v with | .vStr s => some s | _ => none)
  | _ => []

/-- The structured detected-extensions salary value of a posting, when the
detected-extensions value is a mapping whose `salary` entry is truthy. -/
def structuredSalary (job : Dict) : Option PyVal :=
  match pyOr (dget job "detected_extensions") (.vDict []) with
  | .vDict kvs => if (dget kvs "salary").truthy then some (dget kvs "salary") else none
  | _ => none

/-- Modelled from the spec wording of the pay extractor (amended): prefer the
structured salary when present with a truthy value; else the first free-text
extension string containing a currency marker or the words hour/year; else the
sentinel.  Compared against `safe_pay` in the refinement theorem. -/
def safePaySpec (job : Dict) : String :=
  match structuredSalary job with
  | some sal => pyToStr sal
  | none =>
    match (extStrings job).find? hasDollarHourYear with
    | some s => s
    | none => "N/A"

/-- A normalized record of an id-less posting (identity sentinel `"N/A"`),
first of two distinct such records. -/
def rowNoId1 : Row :=
  { job_id := .vStr "N/A", title := .vStr "QA Manager", company_name := .vStr "Acme Foods",
    pay := "N/A", time_posted := "today", location := .vStr "Ohio", source := .vStr "LinkedIn",
    apply_link := .vStr "N/A", source_link := .vStr "N/A", company_careers_link := "N/A" }

/-- A second id-less normalized record, differing from `rowNoId1` in title,
company and location. -/
def rowNoId2 : Row :=
  { job_id := .vStr "N/A", title := .vStr "Food Safety Supervisor", company_name := .vStr "Dairy Co",
    pay := "N/A", time_posted := "today", location := .vStr "Texas", source := .vStr "Indeed",
    apply_link := .vStr "N/A", source_link := .vStr "N/A", company_careers_link := "N/A" }

/-- The record `normalize_row` produces for the empty posting `\x7b\x7d`:
every field the sentinel. -/
def rowOfEmptyJob : Row :=
  { job_id := .vStr "N/A", title := .vStr "N/A", company_name := .vStr "N/A",
    pay := "N/A", time_posted := "N/A", location := .vStr "N/A", source := .vStr "Unknown",
    apply_link := .vStr "N/A", source_link := .vStr "N/A", company_careers_link := "N/A" }

/-- A normalized record posted two weeks ago (outside the 7-day window). -/
def rowStale : Row :=
  { job_id := .vStr "idA", title := .vStr "QA Manager", company_name := .vStr "Acme Foods",
    pay := "N/A", time_posted := "2 weeks ago", location := .vStr "Ohio", source := .vStr "LinkedIn",
    apply_link := .vStr "N/A", source_link := .vStr "N/A", company_careers_link := "N/A" }

/-- A normalized record posted today (inside the 7-day window). -/
def rowToday : Row :=
  { job_id := .vStr "idB", title := .vStr "Quality Lead", company_name := .vStr "Dairy Co",
    pay := "N/A", time_posted := "today", location := .vStr "Texas", source := .vStr "Indeed",
    apply_link := .vStr "N/A", source_link := .vStr "N/A", company_careers_link := "N/A" }

example : posted_days "today" = 0 := by decide
example : posted_days "Just Posted" = 0 := by decide
example : posted_days "3 days ago" = 3 := by decide
example : posted_days "1 week ago" = 7 := by decide
example : posted_days "" = 999 := by decide
example : posted_days "unknown" = 999 := by decide
example : posted_days "N/A" = 999 := by decide
example : posted_days "5 hours ago" = 0 := by decide
example : posted_days "yesterday" = 1 := by decide
example : posted_days "2 weeks ago" = 14 := by decide

/-- C8: the recency parser is deterministic — any two evaluations of
`posted_days` on the same text return the same magnitude (in the embedding the
parser is a pure function of its argument alone). -/
theorem posted_days_deterministic (t1 t2 : String) (h : t1 = t2) :
    posted_days t1 = posted_days t2 := by
  rw [h]

/-- Witness for `posted_days_deterministic` at a concrete text. -/
theorem posted_days_deterministic_witness :
    posted_days "3 days ago" = posted_days "3 days ago" :=
  posted_days_deterministic "3 days ago" "3 days ago" rfl

/-- C2: for normalized records of id-less postings the deduplicator does not
key by the (title, company, location) composite — `normalize_row` stores the
truthy string `"N/A"` as `job_id`, so both records below get key `"N/A"` and
the second, a different job, is dropped. -/
theorem dedupe_collapses_distinct_idless_rows :
    rowNoId1.job_id = .vStr "N/A" ∧ rowNoId2.job_id = .vStr "N/A" ∧
    rowNoId1.title ≠ rowNoId2.title ∧
    dedupe_by_job_id [rowNoId1, rowNoId2] = .ok [rowNoId1] := by
  refine ⟨rfl, rfl, ?_, rfl⟩
  intro hcontra
  have h2 : rowNoId1.title = PyVal.vStr "QA Manager" := rfl
  have h3 : rowNoId2.title = PyVal.vStr "Food Safety Supervisor" := rfl
  rw [h2, h3] at hcontra
  injection hcontra with h4
  exact absurd h4 (by decide)

/-- C5: the normalizer can raise — a posting whose `related_links` value is a
non-empty list of non-dictionaries makes `safe_apply_link` evaluate
`links[0].get("link")` on a string, an `AttributeError`. -/
theorem normalize_row_raises_on_string_link :
    normalize_row [("related_links", .vList [.vStr "x"])] (fun _ => []) =
      .error "AttributeError" := by
  rfl

/-- C3 counterexample: a posting titled `"QA Supervisor"` (a must-keep role
term) with no food-domain keyword anywhere in title, company or description is
discarded by the relevance filter. -/
theorem qa_supervisor_title_is_dropped :
    dget [("title", .vStr "QA Supervisor"), ("company_name", .vStr "Acme Corp"),
          ("description", .vStr "Supervise the QA team and lead audits.")] "title" =
        .vStr "QA Supervisor" ∧
    looks_food_industry
      [("title", .vStr "QA Supervisor"), ("company_name", .vStr "Acme Corp"),
       ("description", .vStr "Supervise the QA team and lead audits.")] = false := by
  exact ⟨rfl, rfl⟩

/-- C4 counterexample: the empty posting (no related links, no structured
fields, no id) normalizes to a record whose apply reference is the `"N/A"`
sentinel — no constructed web-search fallback fills it. -/
theorem normalize_row_apply_link_is_sentinel :
    normalize_row [] (fun _ => []) = .ok rowOfEmptyJob ∧
    rowOfEmptyJob.apply_link = .vStr "N/A" := by
  exact ⟨rfl, rfl⟩

/-- C9 counterexample: a posting whose detected-extensions `salary` field is
present but empty is not reported from that field — the extensions scan wins,
so `safe_pay` is not "the structured salary field when present". -/
theorem safe_pay_skips_present_empty_salary :
    dget [("salary", .vStr "")] "salary" = .vStr "" ∧
    safe_pay [("detected_extensions", .vDict [("salary", .vStr "")]),
              ("extensions", .vList [.vStr "$1"])] = "$1" ∧
    ("$1" : String) ≠ pyToStr (.vStr "") := by
  exact ⟨rfl, rfl, by decide⟩

/-- For a non-sentinel text, `posted_days` is the keyword/regex cascade on the
stripped, lowered text. -/
theorem posted_days_eq_cascade (t : String) (h0 : ¬(t = "" ∨ t = "N/A")) :
    posted_days t =
      (if containsSub jpPat (recencyText t) || containsSub todayPat (recencyText t) then 0
       else if containsSub ydayPat (recencyText t) then 1
       else if (matchNumWord hourPat (recencyText t)).isSome then 0
       else
         match matchNumWord dayPat (recencyText t) with
         | some n => n
         | none =>
           match matchNumWord weekPat (recencyText t) with
           | some n => n * 7
           | none => 999) := by
  unfold posted_days
  rw [if_neg h0]

/-- C1: the recency rules, in priority order.  A text containing "just posted"
or "today" (case-insensitively, after stripping) maps to 0; failing that,
"yesterday" maps to 1; failing that, a match of digits-space-"hour" maps to 0;
then digits-space-"day" maps to the matched number; then digits-space-"week"
maps to seven times the number; and the empty text, the "N/A" sentinel, or an
unmatched text maps to the sentinel magnitude 999. -/
theorem posted_days_rule_order (t : String) (n : Nat) :
    ((containsSub jpPat (recencyText t) = true ∨ containsSub todayPat (recencyText t) = true) →
      posted_days t = 0) ∧
    (containsSub jpPat (recencyText t) = false →
      containsSub todayPat (recencyText t) = false →
      containsSub ydayPat (recencyText t) = true →
      posted_days t = 1) ∧
    (containsSub jpPat (recencyText t) = false →
      containsSub todayPat (recencyText t) = false →
      containsSub ydayPat (recencyText t) = false →
      (matchNumWord hourPat (recencyText t)).isSome = true →
      posted_days t = 0) ∧
    (containsSub jpPat (recencyText t) = false →
      containsSub todayPat (recencyText t) = false →
      containsSub ydayPat (recencyText t) = false →
      (matchNumWord hourPat (recencyText t)).isSome = false →
      matchNumWord dayPat (recencyText t) = some n →
      posted_days t = n) ∧
    (containsSub jpPat (recencyText t) = false →
      containsSub todayPat (recencyText t) = false →
      containsSub ydayPat (recencyText t) = false →
      (matchNumWord hourPat (recencyText t)).isSome = false →
      matchNumWord dayPat (recencyText t) = none →
      matchNumWord weekPat (recencyText t) = some n →
      posted_days t = n * 7) ∧
    ((t = "" ∨ t = "N/A" ∨
        (containsSub jpPat (recencyText t) = false ∧
         containsSub todayPat (recencyText t) = false ∧
         containsSub ydayPat (recencyText t) = false ∧
         (matchNumWord hourPat (recencyText t)).isSome = false ∧
         matchNumWord dayPat (recencyText t) = none ∧
         matchNumWord weekPat (recencyText t) = none)) →
      posted_days t = 999) := by
  by_cases h0 : t = "" ∨ t = "N/A"
  · have hv : posted_days t = 999 := by
      rcases h0 with rfl | rfl <;> rfl
    have hjp : containsSub jpPat (recencyText t) = false := by
      rcases h0 with rfl | rfl <;> decide
    have htd : containsSub todayPat (recencyText t) = false := by
      rcases h0 with rfl | rfl <;> decide
    have hyd : containsSub ydayPat (recencyText t) = false := by
      rcases h0 with rfl | rfl <;> decide
    have hhr : (matchNumWord hourPat (recencyText t)).isSome = false := by
      rcases h0 with rfl | rfl <;> decide
    have hday : matchNumWord dayPat (recencyText t) = none := by
      rcases h0 with rfl | rfl <;> decide
    have hweek : matchNumWord weekPat (recencyText t) = none := by
      rcases h0 with rfl | rfl <;> decide
    refine ⟨?_, ?_, ?_, ?_, ?_, fun _ => hv⟩
    · intro h
      rcases h with h | h
      · rw [hjp] at h; cases h
      · rw [htd] at h; cases h
    · intro _ _ h
      rw [hyd] at h; cases h
    · intro _ _ _ h
      rw [hhr] at h; cases h
    · intro _ _ _ _ h
      rw [hday] at h; cases h
    · intro _ _ _ _ _ h
      rw [hweek] at h; cases h
  · refine ⟨?_, ?_, ?_, ?_, ?_, ?_⟩
    · intro h
      rw [posted_days_eq_cascade t h0]
      rcases h with h | h <;> simp [h]
    · intro h1 h2 h3
      rw [posted_days_eq_cascade t h0]
      simp [h1, h2, h3]
    · intro h1 h2 h3 h4
      rw [posted_days_eq_cascade t h0]
      simp [h1, h2, h3, h4]
    · intro h1 h2 h3 h4 h5
      rw [posted_days_eq_cascade t h0]
      simp [h1, h2, h3, h4, h5]
    · intro h1 h2 h3 h4 h5 h6
      rw [posted_days_eq_cascade t h0]
      simp [h1, h2, h3, h4, h5, h6]
    · intro h
      rcases h with rfl | rfl | ⟨h1, h2, h3, h4, h5, h6⟩
      · exact absurd (Or.inl rfl) h0
      · exact absurd (Or.inr rfl) h0
      · rw [posted_days_eq_cascade t h0]
        simp [h1, h2, h3, h4, h5, h6]

/-- Witness for `posted_days_rule_order`: the rules applied at concrete
texts (rule 1 at "Just Posted", rule 4 at "3 days ago", rule 5 at
"1 week ago", and the sentinel rule at "unknown"). -/
theorem posted_days_rule_order_witness :
    posted_days "Just Posted" = 0 ∧ posted_days "3 days ago" = 3 ∧
    posted_days "1 week ago" = 1 * 7 ∧ posted_days "unknown" = 999 := by
  refine ⟨?_, ?_, ?_, ?_⟩
  · exact (posted_days_rule_order "Just Posted" 0).1 (Or.inl (by decide))
  · exact (posted_days_rule_order "3 days ago" 3).2.2.2.1
      (by decide) (by decide) (by decide) (by decide) (by decide)
  · exact (posted_days_rule_order "1 week ago" 1).2.2.2.2.1
      (by decide) (by decide) (by decide) (by decide) (by decide) (by decide)
  · exact (posted_days_rule_order "unknown" 0).2.2.2.2.2
      (Or.inr (Or.inr (by refine ⟨?_, ?_, ?_, ?_, ?_, ?_⟩ <;> decide)))

/-- A successful pass of the dedupe loop is a fixed point: running the loop
again on its own output, from the same seen-set, keeps every row. -/
theorem dedupeGo_ok_self (X : List Row) : ∀ (seen : List PyVal) (Y : List Row),
    dedupeGo seen X = .ok Y → dedupeGo seen Y = .ok Y := by
  induction X with
  | nil =>
    intro seen Y h
    simp only [dedupeGo] at h
    cases h
    rfl
  | cons r rs ih =>
    intro seen Y h
    simp only [dedupeGo] at h
    cases hk : rowKey r with
    | error e =>
      rw [hk] at h
      simp at h
    | ok key =>
      rw [hk] at h
      dsimp only [] at h
      by_cases hh : hashablePy key = false
      · rw [if_pos hh] at h
        simp at h
      · rw [if_neg hh] at h
        by_cases hm : (seen.any fun k => pyKeyEq key k) = true
        · rw [if_pos hm] at h
          exact ih seen Y h
        · rw [if_neg hm] at h
          cases hrec : dedupeGo (key :: seen) rs with
          | error e => rw [hrec] at h; simp at h
          | ok out =>
            rw [hrec] at h
            dsimp only [] at h
            simp only [Except.ok.injEq] at h
            subst h
            simp only [dedupeGo, hk]
            rw [if_neg hh, if_neg hm, ih (key :: seen) out hrec]

/-- The dedupe loop never lengthens its input. -/
theorem dedupeGo_length_le (X : List Row) : ∀ (seen : List PyVal) (Y : List Row),
    dedupeGo seen X = .ok Y → Y.length ≤ X.length := by
  induction X with
  | nil =>
    intro seen Y h
    simp only [dedupeGo] at h
    cases h
    exact Nat.le_refl 0
  | cons r rs ih =>
    intro seen Y h
    simp only [dedupeGo] at h
    cases hk : rowKey r with
    | error e => rw [hk] at h; simp at h
    | ok key =>
      rw [hk] at h
      dsimp only [] at h
      by_cases hh : hashablePy key = false
      · rw [if_pos hh] at h
        simp at h
      · rw [if_neg hh] at h
        by_cases hm : (seen.any fun k => pyKeyEq key k) = true
        · rw [if_pos hm] at h
          exact Nat.le_succ_of_le (ih seen Y h)
        · rw [if_neg hm] at h
          cases hrec : dedupeGo (key :: seen) rs with
          | error e => rw [hrec] at h; simp at h
          | ok out =>
            rw [hrec] at h
            dsimp only [] at h
            simp only [Except.ok.injEq] at h
            subst h
            simp only [List.length_cons]
            exact Nat.succ_le_succ (ih (key :: seen) out hrec)

/-- Normalization produces exactly one record per raw posting. -/
theorem normalize_all_length (listing : PyVal → Dict) (R : List Dict) :
    ∀ rows, normalize_all listing R = .ok rows → rows.length = R.length := by
  induction R with
  | nil =>
    intro rows h
    simp only [normalize_all] at h
    cases h
    rfl
  | cons j js ih =>
    intro rows h
    simp only [normalize_all] at h
    cases hn : normalize_row j listing with
    | error e => rw [hn] at h; simp at h
    | ok r =>
      rw [hn] at h
      dsimp only [] at h
      cases hrec : normalize_all listing js with
      | error e => rw [hrec] at h; simp at h
      | ok rs =>
        rw [hrec] at h
        dsimp only [] at h
        simp only [Except.ok.injEq] at h
        subst h
        simp [ih rs hrec]

/-- C7: deduplication is idempotent — re-running `dedupe_by_job_id` on its own
successful output returns that output — and the deduplicated normalization of
a raw-posting sequence is never longer than the sequence. -/
theorem dedupe_idempotent_and_bounded :
    (∀ X Y : List Row, dedupe_by_job_id X = .ok Y → dedupe_by_job_id Y = .ok Y) ∧
    (∀ (listing : PyVal → Dict) (R : List Dict) (rows out : List Row),
      normalize_all listing R = .ok rows → dedupe_by_job_id rows = .ok out →
      out.length ≤ R.length) := by
  constructor
  · intro X Y h
    exact dedupeGo_ok_self X [] Y h
  · intro listing R rows out h1 h2
    rw [← normalize_all_length listing R rows h1]
    exact dedupeGo_length_le rows [] out h2

/-- Witness for `dedupe_idempotent_and_bounded` at concrete inputs. -/
theorem dedupe_idempotent_and_bounded_witness :
    dedupe_by_job_id [rowToday] = .ok [rowToday] ∧
    ([rowOfEmptyJob] : List Row).length ≤ ([([] : Dict)] : List Dict).length := by
  constructor
  · exact dedupe_idempotent_and_bounded.1 [rowToday, rowToday] [rowToday] (by rfl)
  · exact dedupe_idempotent_and_bounded.2 (fun _ => []) [[]] [rowOfEmptyJob] [rowOfEmptyJob]
      (by rfl) (by rfl)

/-- C6: after deduplication the driver's post-processing keeps only records
within the 7-day window and sorts the rest ascending by recency magnitude, so
every adjacent pair (a, b) of the final output satisfies
`posted_days a <= posted_days b`. -/
theorem pipelinePost_sorted (rows out : List Row)
    (h : pipelinePost rows = .ok out) :
    (∀ r ∈ out, posted_days r.time_posted ≤ 7) ∧
    List.Chain' (fun a b => posted_days a.time_posted ≤ posted_days b.time_posted) out := by
  simp only [pipelinePost] at h
  cases hd : dedupe_by_job_id rows with
  | error e => rw [hd] at h; simp at h
  | ok d =>
    rw [hd] at h
    dsimp only [] at h
    simp only [Except.ok.injEq] at h
    subst h
    constructor
    · intro r hr
      simp only [sortRows, List.mem_mergeSort] at hr
      simp only [windowFilter, List.mem_filter] at hr
      have := hr.2
      simpa using this
    · have htrans : ∀ a b c : Row, recencyLE a b → recencyLE b c → recencyLE a c := by
        intro a b c hab hbc
        simp only [recencyLE, decide_eq_true_eq] at hab hbc ⊢
        omega
      have htotal : ∀ a b : Row, recencyLE a b || recencyLE b a := by
        intro a b
        simp only [recencyLE]
        rcases Nat.le_total (posted_days a.time_posted) (posted_days b.time_posted) with hle | hle
        · simp [hle]
        · simp [hle]
      have hp : (sortRows (windowFilter d)).Pairwise (fun a b => recencyLE a b) :=
        List.sorted_mergeSort htrans htotal (windowFilter d)
      refine List.Chain'.imp ?_ hp.chain'
      intro a b hab
      simpa only [recencyLE, decide_eq_true_eq] using hab

/-- Witness for `pipelinePost_sorted`: a stale record is discarded and the
remaining singleton output is trivially sorted. -/
theorem pipelinePost_sorted_witness :
    (∀ r ∈ [rowToday], posted_days r.time_posted ≤ 7) ∧
    List.Chain' (fun a b => posted_days a.time_posted ≤ posted_days b.time_posted) [rowToday] := by
  have h1 : dedupe_by_job_id [rowStale, rowToday] = .ok [rowStale, rowToday] := by rfl
  have h2 : windowFilter [rowStale, rowToday] = [rowToday] := by rfl
  have base : pipelinePost [rowStale, rowToday] = .ok [rowToday] := by
    simp only [pipelinePost, h1, sortRows, h2, List.mergeSort_singleton]
  exact pipelinePost_sorted [rowStale, rowToday] [rowToday] base

/-- C10: every record of the final output is within the 7-day window; in
particular no output record carries the sentinel recency text `"N/A"` or the
empty text, both of which map to the magnitude 999. -/
theorem pipelinePost_window (rows out : List Row)
    (h : pipelinePost rows = .ok out) :
    ∀ r ∈ out, posted_days r.time_posted ≤ 7 ∧
      r.time_posted ≠ "N/A" ∧ r.time_posted ≠ "" := by
  simp only [pipelinePost] at h
  cases hd : dedupe_by_job_id rows with
  | error e => rw [hd] at h; simp at h
  | ok d =>
    rw [hd] at h
    dsimp only [] at h
    simp only [Except.ok.injEq] at h
    subst h
    intro r hr
    simp only [sortRows, List.mem_mergeSort] at hr
    simp only [windowFilter, List.mem_filter] at hr
    have hle : posted_days r.time_posted ≤ 7 := by simpa using hr.2
    refine ⟨hle, ?_, ?_⟩
    · intro hna
      have h999 : posted_days r.time_posted = 999 := by rw [hna]; decide
      omega
    · intro hem
      have h999 : posted_days r.time_posted = 999 := by rw [hem]; decide
      omega

/-- Witness for `pipelinePost_window` at a concrete pipeline run. -/
theorem pipelinePost_window_witness :
    posted_days rowToday.time_posted ≤ 7 ∧
    rowToday.time_posted ≠ "N/A" ∧ rowToday.time_posted ≠ "" := by
  have h1 : dedupe_by_job_id [rowStale, rowToday] = .ok [rowStale, rowToday] := by rfl
  have h2 : windowFilter [rowStale, rowToday] = [rowToday] := by rfl
  have base : pipelinePost [rowStale, rowToday] = .ok [rowToday] := by
    simp only [pipelinePost, h1, sortRows, h2, List.mergeSort_singleton]
  exact pipelinePost_window [rowStale, rowToday] [rowToday] base rowToday (by simp)

/-- The apply-link field of the record literal is always truthy: either the
kept truthy value or the non-empty sentinel string `"N/A"`. -/
theorem returnRow_apply_link_truthy (a b c : PyVal) (p tpo : String)
    (l s al sl : PyVal) :
    (returnRow a b c p tpo l s al sl).apply_link.truthy = true := by
  simp only [returnRow]
  split
  · assumption
  · rfl

/-- C4 (amended): whenever `normalize_row` returns a record, its apply
reference is a truthy (non-empty) value — but it may be the `"N/A"` sentinel,
since no web-search fallback exists for the apply link. -/
theorem normalize_row_apply_link_truthy (job : Dict) (listing : PyVal → Dict)
    (r : Row) (h : normalize_row job listing = .ok r) :
    r.apply_link.truthy = true := by
  simp only [normalize_row] at h
  repeat' split at h
  all_goals
    first
    | (simp at h
       done)
    | (simp only [Except.ok.injEq] at h
       subst h
       apply returnRow_apply_link_truthy)

/-- Witness for `normalize_row_apply_link_truthy` at the empty posting. -/
theorem normalize_row_apply_link_truthy_witness :
    rowOfEmptyJob.apply_link.truthy = true :=
  normalize_row_apply_link_truthy [] (fun _ => []) rowOfEmptyJob (by rfl)

/-- C3 (amended): the relevance filter keeps a posting exactly when some
domain keyword of `FOOD_HINTS` occurs, case-insensitively, in the
concatenation of title, company and description — role-keyword titles play no
role in the decision. -/
theorem looks_food_industry_iff_hint (job : Dict) :
    looks_food_industry job = true ↔
      ∃ hint ∈ FOOD_HINTS, containsSub (lowerChars hint.toList) (jobSearchText job) = true := by
  simp [looks_food_industry, List.any_eq_true]

/-- The extension scan of `safe_pay` returns the first string element of the
list satisfying the pay predicate, else the sentinel. -/
theorem payScan_eq_find (items : List PyVal) :
    payScan items =
      (match (items.filterMap
                (fun v => match v with | .vStr s => some s | _ => none)).find? hasDollarHourYear with
       | some s => s
       | none => "N/A") := by
  induction items with
  | nil => rfl
  | cons v rest ih =>
    cases v with
    | vStr s =>
      by_cases hs : hasDollarHourYear s = true
      · simp [payScan, hs, List.filterMap_cons, List.find?]
      · simp [payScan, hs, List.filterMap_cons, List.find?, ih]
    | vNone => simpa [payScan, List.filterMap_cons] using ih
    | vBool b => simpa [payScan, List.filterMap_cons] using ih
    | vInt n => simpa [payScan, List.filterMap_cons] using ih
    | vList xs => simpa [payScan, List.filterMap_cons] using ih
    | vDict kvs => simpa [payScan, List.filterMap_cons] using ih

/-- The extensions part of `safe_pay` in terms of the extension-string view. -/
theorem payFromExtensions_eq_find (job : Dict) :
    payFromExtensions job =
      (match (extStrings job).find? hasDollarHourYear with
       | some s => s
       | none => "N/A") := by
  unfold payFromExtensions extStrings
  cases pyOr (dget job "extensions") (.vList []) with
  | vList items => exact payScan_eq_find items
  | vNone => rfl
  | vBool b => rfl
  | vInt n => rfl
  | vStr s => rfl
  | vDict kvs => rfl

/-- C9 (amended): the pay extractor equals the specified cascade — the
structured detected-extensions salary when its value is truthy, else the first
free-text extension string containing a currency marker or hour/year, else the
`"N/A"` sentinel. -/
theorem safe_pay_eq_spec (job : Dict) : safe_pay job = safePaySpec job := by
  unfold safe_pay safePaySpec structuredSalary
  cases pyOr (dget job "detected_extensions") (.vDict []) with
  | vDict kvs =>
    by_cases hsal : (dget kvs "salary").truthy = true
    · simp [hsal]
    · simp only [hsal, Bool.false_eq_true, if_false, if_neg hsal]
      exact payFromExtensions_eq_find job
  | vNone => exact payFromExtensions_eq_find job
  | vBool b => exact payFromExtensions_eq_find job
  | vInt n => exact payFromExtensions_eq_find job
  | vStr s => exact payFromExtensions_eq_find job
  | vList xs => exact payFromExtensions_eq_find job
